import Mathlib

/-!
Verification of `src/main/utils/chromeRequest.ts` (an HTTP request helper
built on Electron's `net`/`session` stack).

The module is shallowly embedded:

* JavaScript `Record<string, string>` objects are modelled as insertion-ordered
  association lists with `objSet` (property assignment: in-place overwrite of
  an existing key, otherwise append) and `objGet` (property read).
* The host primitives the module delegates to (`Buffer.toString('utf-8')`,
  `JSON.parse`, `JSON.stringify`) are taken as parameters, since their
  implementations live outside this repository; the theorems quantify over
  them and witnesses instantiate them concretely.
* The asynchronous execution inside `request`'s promise executor is modelled
  as a fold of a `step` function over a trace of events (`redirect`,
  `response`, `data`, `end`, stream/request `error`, `abort`, timer firing),
  each handler translated from the corresponding `req.on`/`res.on` callback.
  JavaScript promise semantics (only the first `resolve`/`reject` commits)
  is modelled by `settle`, which is a no-op once `settled` is `some`.
* The setup phase (`setupProxy().then(...).catch(...)`) is modelled by
  `SetupResult`: the `.catch` receives both a rejection of `setupProxy()` and
  any synchronous exception thrown inside the `.then` callback (for example
  `net.request` throwing on a malformed URL), and both reach the same
  `reject(new Error('Failed to setup proxy: ' + error))`.
-/

namespace ChromeRequest

/-- Byte buffers (`Buffer`) are modelled as lists of bytes. -/
abbrev Bytes := List Nat

/-- JavaScript object property assignment on a `Record<string, string>`:
overwrite the value of an existing key in place (JS object keys are unique,
so updating the first occurrence is the JS in-place update), otherwise
append the new entry at the end (JS insertion order). -/
def objSet : List (String × String) → String → String → List (String × String)
  | [], k, v => [(k, v)]
  | p :: rest, k, v =>
      if p.1 = k then (k, v) :: rest else p :: objSet rest k v

/-- JavaScript object property read: the value of the first (and, when keys
are unique, only) entry with the given key. -/
def objGet : List (String × String) → String → Option String
  | [], _ => Option.none
  | p :: rest, k => if p.1 = k then Option.some p.2 else objGet rest k

/-- JavaScript string truthiness for an optional property value:
`undefined` and the empty string are falsy, every other string is truthy. -/
def jsTruthyStr : Option String → Bool
  | Option.none => false
  | Option.some s => s != ""

/-- JS `String.prototype.toLowerCase` restricted to the ASCII range, as used on
header names (`rawHeaders[i].toLowerCase()`). -/
def jsToLower (s : String) : String := ⟨s.data.map Char.toLower⟩

/-- The `proxy` field of `RequestOptions`: omitted, the literal `false`,
or a populated descriptor `{protocol, host, port}`. -/
inductive ProxyOpt
  | omitted
  | disabled
  | enabled (protocol : String) (host : String) (port : Nat)
deriving DecidableEq, Repr

/-- The `responseType` field. -/
inductive RespType
  | text
  | json
  | arraybuffer
deriving DecidableEq, Repr

/-- The `RequestOptions` record after destructuring with the defaults of
`chromeRequest.ts` lines 34-43. -/
structure RequestOptions where
  method : String := "GET"
  headers : List (String × String) := []
  body : Option (String ⊕ Bytes) := Option.none
  proxy : ProxyOpt := ProxyOpt.omitted
  timeout : Int := 30000
  responseType : RespType := RespType.text
  followRedirect : Bool := true
  maxRedirects : Nat := 20
deriving DecidableEq, Repr

/-- The network context a request is issued on: either
`session.defaultSession`, or an isolated partition created by
`session.fromPartition(tempPartition, { cache: false })` with proxy rules
applied via `setProxy({ proxyRules })`. -/
inductive SessionChoice
  | defaultSession
  | isolated (partition : String) (cache : Bool) (proxyRules : String)
deriving DecidableEq, Repr

/-- The proxy rule string `` `${proxy.protocol}://${proxy.host}:${proxy.port}` ``. -/
def proxyRuleString (protocol host : String) (port : Nat) : String :=
  protocol ++ "://" ++ host ++ ":" ++ toString port

/-- The `setupProxy` closure (lines 50-58) together with the initial
`sessionToUse = session.defaultSession`: the guard `if (proxy)` is JS
truthiness, so both an omitted proxy and `proxy: false` keep the default
session, while a populated descriptor creates a fresh non-caching partition
`temp-request-...` (the `Date.now()`/`Math.random()` suffix is the `nonce`
parameter) routed through the rule string. -/
def sessionFor (nonce : String) : ProxyOpt → SessionChoice
  | ProxyOpt.omitted => SessionChoice.defaultSession
  | ProxyOpt.disabled => SessionChoice.defaultSession
  | ProxyOpt.enabled protocol host port =>
      SessionChoice.isolated ("temp-request-" ++ nonce) false
        (proxyRuleString protocol host port)

/-- The `data` argument of the `post`/`put`/`patch` wrappers:
either a JS string (`typeof data === 'string'`) or any other value, of the
host JSON-value type `J`. -/
inductive JsData (J : Type)
  | str (s : String)
  | other (v : J)
deriving DecidableEq, Repr

/-- What a body-bearing wrapper hands to `request`, plus the observable state
of the caller's own `headers` object after the call.  The source does
`const headers = options?.headers || {}`, which *aliases* the caller's object
when one was supplied, and then assigns into it; so when the caller passed a
headers object, its post-call contents are exactly `requestHeaders`
(`callerHeadersAfter = some requestHeaders`), and when the caller passed none
a fresh `{}` is used and the caller observes nothing (`none`). -/
structure WrapperResult where
  method : String
  body : String
  requestHeaders : List (String × String)
  callerHeadersAfter : Option (List (String × String))
deriving DecidableEq, Repr

/-- Shared translation of the wrapper bodies (`post` lines 205-211, `put`
lines 221-227, `patch` lines 245-251): `body` is `data` verbatim when it is
a string, else `JSON.stringify(data)` (the `stringify` parameter); the
injection guard is `typeof data !== 'string' && !headers['content-type']`,
an exact-key read of the lowercase property `'content-type'` under JS
truthiness. -/
def prepBodyHeaders {J : Type} (stringify : J → String) (data : JsData J)
    (callerHeaders : Option (List (String × String))) :
    String × List (String × String) :=
  let body := match data with
    | JsData.str s => s
    | JsData.other v => stringify v
  let headers := callerHeaders.getD []
  let headers :=
    if (match data with | JsData.str _ => false | JsData.other _ => true)
        && !(jsTruthyStr (objGet headers "content-type")) then
      objSet headers "content-type" "application/json"
    else headers
  (body, headers)

/-- The `post` wrapper (lines 201-212). -/
def post {J : Type} (stringify : J → String) (data : JsData J)
    (callerHeaders : Option (List (String × String))) : WrapperResult :=
  let (body, headers) := prepBodyHeaders stringify data callerHeaders
  { method := "POST", body := body, requestHeaders := headers,
    callerHeadersAfter := callerHeaders.map (fun _ => headers) }

/-- The `put` wrapper (lines 217-228). -/
def put {J : Type} (stringify : J → String) (data : JsData J)
    (callerHeaders : Option (List (String × String))) : WrapperResult :=
  let (body, headers) := prepBodyHeaders stringify data callerHeaders
  { method := "PUT", body := body, requestHeaders := headers,
    callerHeadersAfter := callerHeaders.map (fun _ => headers) }

/-- The `patch` wrapper (lines 241-252). -/
def patch {J : Type} (stringify : J → String) (data : JsData J)
    (callerHeaders : Option (List (String × String))) : WrapperResult :=
  let (body, headers) := prepBodyHeaders stringify data callerHeaders
  { method := "PATCH", body := body, requestHeaders := headers,
    callerHeadersAfter := callerHeaders.map (fun _ => headers) }

/-- The contract of one body-bearing wrapper as the code implements it:
the body is the string `data` verbatim, otherwise `JSON.stringify(data)`;
the `content-type: application/json` injection is keyed on the exact
lowercase property `'content-type'` of the caller's headers under JS
truthiness (so a header supplied under any other casing, or with an
empty-string value, counts as absent), and when no injection happens the
headers are passed through unchanged. -/
def wrapperAmendedOk {J : Type} (stringify : J → String) (data : JsData J)
    (callerHeaders : Option (List (String × String))) (w : WrapperResult) : Prop :=
  (∀ s, data = JsData.str s →
    w.body = s ∧ w.requestHeaders = callerHeaders.getD []) ∧
  (∀ v, data = JsData.other v →
    w.body = stringify v ∧
    (jsTruthyStr (objGet (callerHeaders.getD []) "content-type") = true →
      w.requestHeaders = callerHeaders.getD []) ∧
    (jsTruthyStr (objGet (callerHeaders.getD []) "content-type") = false →
      objGet w.requestHeaders "content-type" = Option.some "application/json" ∧
      ∀ k, k ≠ "content-type" →
        objGet w.requestHeaders k = objGet (callerHeaders.getD []) k))

/-- Host primitives the module delegates to: `Buffer.prototype.toString('utf-8')`
and `JSON.parse` (returning a host JSON value of type `J`, or throwing). -/
structure Host (J : Type) where
  utf8Decode : Bytes → String
  jsonParse : String → Except String J

/-- The parsed `data` field of a resolved `Response`: a string for
`responseType: 'text'`, the raw accumulated buffer for `'arraybuffer'`,
a host JSON value for `'json'`. -/
inductive RespData (J : Type)
  | text (s : String)
  | bytes (b : Bytes)
  | json (j : J)
deriving DecidableEq, Repr

/-- The resolved `Response` object (lines 141-147). -/
structure RespVal (J : Type) where
  data : RespData J
  status : Nat
  statusText : String
  headers : List (String × String)
  url : String
deriving DecidableEq, Repr

/-- The single settlement of the returned promise.  Error constructors carry
the distinguishing payload of the corresponding `reject`: `timeoutErr` the
configured duration (`Request timeout after ${timeout}ms`), `tooManyRedirects`
the configured maximum (`Too many redirects (>${maxRedirects})`), `parseError`
the cause string (`Failed to parse response: ${error}`), `transportError` the
unwrapped error object passed as-is, `proxySetupError` the cause string
(`Failed to setup proxy: ${error}`). -/
inductive Outcome (J : Type)
  | resolved (r : RespVal J)
  | timeoutErr (ms : Int)
  | tooManyRedirects (maxR : Nat)
  | parseError (cause : String)
  | transportError (e : String)
  | abortError
  | proxySetupError (cause : String)
deriving DecidableEq, Repr

/-- The per-call closure state mutated by the event handlers:
the promise settlement (`none` while pending), whether a `setTimeout` timer
is pending, `redirectCount`, the accumulated `chunks`, the captured response
metadata (status code, status message, extracted headers) once the
`response` event fired, and whether `req.abort()` has been called. -/
structure ReqState (J : Type) where
  settled : Option (Outcome J) := Option.none
  timerActive : Bool := false
  redirectCount : Nat := 0
  chunks : List Bytes := []
  resp : Option (Nat × String × List (String × String)) := Option.none
  aborted : Bool := false
deriving DecidableEq, Repr

/-- The events delivered to the per-call handlers, in event-loop order:
`req.on('redirect')`, `req.on('response')` (carrying the raw alternating
header name/value sequence), `res.on('data')`, `res.on('end')`,
`res.on('error')`, `req.on('error')`, `req.on('abort')`, and the firing of
the timeout timer. -/
inductive Event
  | redirect
  | response (status : Nat) (statusText : String) (rawHeaders : List String)
  | dataChunk (chunk : Bytes)
  | endEvt
  | streamError (e : String)
  | reqError (e : String)
  | abortEvt
  | timerFire
deriving DecidableEq, Repr

/-- A call to `resolve`/`reject` under JS promise semantics: only the first settlement
commits, later calls are no-ops. -/
def settle {J : Type} (st : ReqState J) (o : Outcome J) : ReqState J :=
  if st.settled.isSome then st else { st with settled := Option.some o }

/-- Pair up the flat `rawHeaders` array as iterated by
`for (let i = 0; i < rawHeaders.length; i += 2)`; a trailing name with no
value (odd length) is dropped (the claims only concern well-formed
alternating sequences). -/
def pairUp : List String → List (String × String)
  | k :: v :: rest => (k, v) :: pairUp rest
  | _ => []

/-- Header extraction (lines 111-115): assign
`responseHeaders[rawHeaders[i].toLowerCase()] = rawHeaders[i + 1]` for each
pair, starting from `{}`. -/
def extractHeaders (rawPairs : List (String × String)) : List (String × String) :=
  rawPairs.foldl (fun acc p => objSet acc (jsToLower p.1) p.2) []

/-- Modelled from the spec's words for comparison with `extractHeaders`:
the value of the **last** pair whose lowercased name equals `name`
("each header name lowercased; when the same header name appears multiple
times only the last occurrence is retained"). -/
def lookupLast (pairs : List (String × String)) (name : String) : Option String :=
  match pairs with
  | [] => Option.none
  | p :: rest =>
    match lookupLast rest name with
    | Option.some v => Option.some v
    | Option.none =>
        if jsToLower p.1 = name then Option.some p.2 else Option.none

/-- The `req.on('redirect')` handler (lines 97-105): increment
`redirectCount`; past `maxRedirects`, abort, clear the timer and reject. -/
def onRedirect {J : Type} (opts : RequestOptions) (st : ReqState J) : ReqState J :=
  let st := { st with redirectCount := st.redirectCount + 1 }
  if st.redirectCount > opts.maxRedirects then
    settle { st with aborted := true, timerActive := false }
      (Outcome.tooManyRedirects opts.maxRedirects)
  else st

/-- The `res.on('end')` handler (lines 121-151): clear the timer,
concatenate the chunks, decode per `responseType`, and resolve — or reject
with the wrapped parse error when `JSON.parse` throws. -/
def onEnd {J : Type} (host : Host J) (opts : RequestOptions) (url : String)
    (st : ReqState J) : ReqState J :=
  match st.resp with
  | Option.none => st
  | Option.some (status, statusText, headers) =>
    let st := { st with timerActive := false }
    let buffer := st.chunks.flatten
    match opts.responseType with
    | RespType.json =>
      match host.jsonParse (host.utf8Decode buffer) with
      | Except.ok j =>
          settle st (Outcome.resolved
            ⟨RespData.json j, status, statusText, headers, url⟩)
      | Except.error e => settle st (Outcome.parseError e)
    | RespType.arraybuffer =>
        settle st (Outcome.resolved
          ⟨RespData.bytes buffer, status, statusText, headers, url⟩)
    | RespType.text =>
        settle st (Outcome.resolved
          ⟨RespData.text (host.utf8Decode buffer), status, statusText, headers, url⟩)

/-- The `res.on('error')` and `req.on('error')` handlers (lines 153-157,
160-164): clear the timer and reject with the error as-is. -/
def onError {J : Type} (st : ReqState J) (e : String) : ReqState J :=
  settle { st with timerActive := false } (Outcome.transportError e)

/-- The `req.on('abort')` handler (lines 166-170). -/
def onAbortEvt {J : Type} (st : ReqState J) : ReqState J :=
  settle { st with timerActive := false } Outcome.abortError

/-- The `setTimeout` callback (lines 87-91): `req.abort()` then reject with
the timeout error carrying the configured duration; the timer is no longer
pending once it has fired. -/
def onTimerFire {J : Type} (opts : RequestOptions) (st : ReqState J) : ReqState J :=
  settle { st with timerActive := false, aborted := true }
    (Outcome.timeoutErr opts.timeout)

/-- One event-handler invocation. -/
def step {J : Type} (host : Host J) (opts : RequestOptions) (url : String)
    (st : ReqState J) : Event → ReqState J
  | Event.redirect => onRedirect opts st
  | Event.response status statusText raw =>
      { st with resp := Option.some (status, statusText, extractHeaders (pairUp raw)) }
  | Event.dataChunk c => { st with chunks := st.chunks ++ [c] }
  | Event.endEvt => onEnd host opts url st
  | Event.streamError e => onError st e
  | Event.reqError e => onError st e
  | Event.abortEvt => onAbortEvt st
  | Event.timerFire => onTimerFire opts st

/-- How the setup phase `setupProxy().then(...)` concluded: the `.then`
callback ran to completion (`ok`), `setupProxy()` rejected
(`proxyFailure`), or the `.then` callback itself threw synchronously —
e.g. `net.request` on a malformed URL or `req.setHeader` on an invalid
header name (`thenThrow`).  The latter two are both delivered to the same
`.catch` (lines 183-186). -/
inductive SetupResult
  | ok
  | proxyFailure (e : String)
  | thenThrow (e : String)
deriving DecidableEq, Repr

/-- The state right after the setup phase: on success the handlers are
armed and the timer is pending iff `timeout > 0` (lines 86-92); on either
failure reaching the `.catch`, the promise is rejected with the wrapped
`Failed to setup proxy` error and no timer was ever started. -/
def startState {J : Type} (opts : RequestOptions) : SetupResult → ReqState J
  | SetupResult.ok => { timerActive := decide (opts.timeout > 0) }
  | SetupResult.proxyFailure e =>
      { settled := Option.some (Outcome.proxySetupError e) }
  | SetupResult.thenThrow e =>
      { settled := Option.some (Outcome.proxySetupError e) }

/-- A whole call: the setup phase followed by the delivered event trace. -/
def run {J : Type} (host : Host J) (opts : RequestOptions) (url : String)
    (setup : SetupResult) (trace : List Event) : ReqState J :=
  trace.foldl (step host opts url) (startState opts setup)

/-- Whether an event can be delivered in a given state: the timer only fires
while pending (`clearTimeout` prevents later firing), `response` fires at
most once, body events only after `response`, and `abort` only after
`req.abort()` was called. -/
def eventOk {J : Type} (st : ReqState J) : Event → Bool
  | Event.timerFire => st.timerActive
  | Event.response _ _ _ => st.resp.isNone
  | Event.dataChunk _ => st.resp.isSome
  | Event.endEvt => st.resp.isSome
  | Event.abortEvt => st.aborted
  | _ => true

/-- A trace deliverable from a given state. -/
def validFrom {J : Type} (host : Host J) (opts : RequestOptions) (url : String)
    (st : ReqState J) : List Event → Bool
  | [] => true
  | e :: rest => eventOk st e && validFrom host opts url (step host opts url st e) rest

/-- Whether an event's handler settles the promise when run in the given
(pending) state: `end` after a response, any error, abort, the timer
firing, or the redirect that pushes the count past `maxRedirects`. -/
def terminalEvent {J : Type} (opts : RequestOptions) (st : ReqState J) : Event → Bool
  | Event.endEvt => st.resp.isSome
  | Event.streamError _ => true
  | Event.reqError _ => true
  | Event.abortEvt => true
  | Event.timerFire => true
  | Event.redirect => decide (st.redirectCount + 1 > opts.maxRedirects)
  | _ => false

/-- A concrete host instantiation for exercising the model on traces that
never reach body decoding. -/
def trivialHost : Host Unit :=
  { utf8Decode := fun _ => "", jsonParse := fun _ => Except.error "" }

/-- A concrete host instantiation whose `JSON.parse` accepts exactly the
decoding of the empty buffer, so both parse outcomes are exercisable. -/
def parseHost : Host Unit :=
  { utf8Decode := fun b => if b = [] then "" else "x",
    jsonParse := fun s => if s = "" then Except.ok () else Except.error "SyntaxError" }

/-! ### Helper lemmas about the JS object model -/

theorem objGet_objSet (m : List (String × String)) (k v k' : String) :
    objGet (objSet m k v) k' = if k' = k then Option.some v else objGet m k' := by
  induction m with
  | nil =>
    by_cases h : k' = k <;> simp [objSet, objGet, h, Ne.symm]
  | cons p rest ih =>
    by_cases hp : p.1 = k
    · by_cases h : k' = k
      · simp [objSet, objGet, hp, h]
      · have hk : ¬ k = k' := fun hh => h hh.symm
        have hpk : ¬ p.1 = k' := fun hh => h (hh ▸ hp)
        simp [objSet, objGet, hp, h, hk, hpk]
    · by_cases h : k' = k
      · subst h
        simp [objSet, objGet, hp, ih, Ne.symm hp]
      · simp [objSet, objGet, hp, ih, h]

theorem objGet_foldl_objSet (pairs : List (String × String))
    (acc : List (String × String)) (name : String) :
    objGet (pairs.foldl (fun acc p => objSet acc (jsToLower p.1) p.2) acc) name =
      match lookupLast pairs name with
      | Option.some v => Option.some v
      | Option.none => objGet acc name := by
  induction pairs generalizing acc with
  | nil => simp [lookupLast]
  | cons p rest ih =>
    simp only [List.foldl_cons]
    rw [ih]
    cases hrest : lookupLast rest name with
    | some v => simp [lookupLast, hrest]
    | none =>
      simp only [lookupLast, hrest, objGet_objSet]
      by_cases hn : name = jsToLower p.1
      · simp [hn]
      · have hn' : ¬ jsToLower p.1 = name := fun hh => hn hh.symm
        simp [hn, hn']

/-! ### Helper lemmas about the event-trace machine -/

theorem settle_settled {J : Type} (st : ReqState J) (o : Outcome J) :
    (settle st o).settled =
      if st.settled.isSome then st.settled else Option.some o := by
  unfold settle; split <;> simp_all

theorem step_settled_of_some {J : Type} (host : Host J) (opts : RequestOptions)
    (url : String) {st : ReqState J} {o : Outcome J} (e : Event)
    (h : st.settled = Option.some o) :
    (step host opts url st e).settled = Option.some o := by
  cases e <;>
    simp only [step, onRedirect, onEnd, onError, onAbortEvt, onTimerFire] <;>
    (repeat' split) <;> simp_all [settle_settled]

theorem step_commits {J : Type} (host : Host J) (opts : RequestOptions)
    (url : String) {st : ReqState J} {e : Event}
    (hpend : st.settled = Option.none) (hterm : terminalEvent opts st e = true) :
    ((step host opts url st e).settled).isSome := by
  cases e <;>
    simp_all only [terminalEvent, step, onRedirect, onEnd, onError, onAbortEvt,
      onTimerFire] <;>
    (repeat' split) <;> simp_all [settle_settled]

theorem step_timerActive_false {J : Type} (host : Host J) (opts : RequestOptions)
    (url : String) {st : ReqState J} (e : Event) (h : st.timerActive = false) :
    (step host opts url st e).timerActive = false := by
  cases e <;>
    simp only [step, onRedirect, onEnd, onError, onAbortEvt, onTimerFire, settle] <;>
    (repeat' split) <;> simp_all

theorem step_timer_cleared {J : Type} (host : Host J) (opts : RequestOptions)
    (url : String) {st : ReqState J} (e : Event)
    (h : st.settled.isSome → st.timerActive = false) :
    (step host opts url st e).settled.isSome →
      (step host opts url st e).timerActive = false := by
  cases e <;>
    simp only [step, onRedirect, onEnd, onError, onAbortEvt, onTimerFire, settle] <;>
    (repeat' split) <;> simp_all

theorem step_redirectCount_ge {J : Type} (host : Host J) (opts : RequestOptions)
    (url : String) (st : ReqState J) (e : Event) :
    st.redirectCount ≤ (step host opts url st e).redirectCount := by
  cases e <;>
    simp only [step, onRedirect, onEnd, onError, onAbortEvt, onTimerFire, settle] <;>
    (repeat' split) <;> simp_all

theorem step_no_timeout {J : Type} (host : Host J) (opts : RequestOptions)
    (url : String) {st : ReqState J} {e : Event} (hne : e ≠ Event.timerFire)
    (h : ∀ d, st.settled ≠ Option.some (Outcome.timeoutErr d)) :
    ∀ d, (step host opts url st e).settled ≠ Option.some (Outcome.timeoutErr d) := by
  rcases hset : st.settled with _ | o
  · cases e <;> (try exact absurd rfl hne) <;>
      simp only [step, onRedirect, onEnd, onError, onAbortEvt, settle] <;>
      (repeat' split) <;> simp_all
  · intro d
    rw [step_settled_of_some host opts url e hset]
    exact hset ▸ h d

theorem step_no_proxySetup {J : Type} (host : Host J) (opts : RequestOptions)
    (url : String) {st : ReqState J} (e : Event)
    (h : ∀ c, st.settled ≠ Option.some (Outcome.proxySetupError c)) :
    ∀ c, (step host opts url st e).settled ≠
      Option.some (Outcome.proxySetupError c) := by
  rcases hset : st.settled with _ | o
  · cases e <;>
      simp only [step, onRedirect, onEnd, onError, onAbortEvt, onTimerFire, settle] <;>
      (repeat' split) <;> simp_all
  · intro c
    rw [step_settled_of_some host opts url e hset]
    exact hset ▸ h c

theorem step_redirect_inv {J : Type} (host : Host J) (opts : RequestOptions)
    (url : String) {st : ReqState J} (e : Event)
    (h : ∀ m, st.settled = Option.some (Outcome.tooManyRedirects m) →
      m = opts.maxRedirects ∧ st.redirectCount > opts.maxRedirects) :
    ∀ m, (step host opts url st e).settled =
        Option.some (Outcome.tooManyRedirects m) →
      m = opts.maxRedirects ∧
        (step host opts url st e).redirectCount > opts.maxRedirects := by
  rcases hset : st.settled with _ | o
  · cases e <;>
      simp only [step, onRedirect, onEnd, onError, onAbortEvt, onTimerFire, settle] <;>
      (repeat' split) <;> simp_all
  · intro m hm
    rw [step_settled_of_some host opts url e hset] at hm
    have hco := h m (hset.trans hm)
    have hge := step_redirectCount_ge host opts url st e
    exact ⟨hco.1, lt_of_lt_of_le hco.2 hge⟩

theorem step_url_inv {J : Type} (host : Host J) (opts : RequestOptions)
    (url : String) {st : ReqState J} (e : Event)
    (h : ∀ r, st.settled = Option.some (Outcome.resolved r) → r.url = url) :
    ∀ r, (step host opts url st e).settled = Option.some (Outcome.resolved r) →
      r.url = url := by
  rcases hset : st.settled with _ | o
  · cases e <;>
      simp only [step, onRedirect, onEnd, onError, onAbortEvt, onTimerFire, settle] <;>
      (repeat' split) <;> simp_all
  · intro r hr
    rw [step_settled_of_some host opts url e hset] at hr
    exact h r (hset.trans hr)

theorem run_append {J : Type} (host : Host J) (opts : RequestOptions)
    (url : String) (setup : SetupResult) (t1 t2 : List Event) :
    run host opts url setup (t1 ++ t2) =
      t2.foldl (step host opts url) (run host opts url setup t1) := by
  simp [run, List.foldl_append]

theorem foldl_preserves {J : Type} (host : Host J) (opts : RequestOptions)
    (url : String) (P : ReqState J → Prop)
    (hstep : ∀ st e, P st → P (step host opts url st e)) :
    ∀ (t : List Event) (st : ReqState J), P st →
      P (t.foldl (step host opts url) st) := by
  intro t
  induction t with
  | nil => intro st h; exact h
  | cons e rest ih => intro st h; exact ih _ (hstep st e h)

theorem validFrom_preserves {J : Type} (host : Host J) (opts : RequestOptions)
    (url : String) (P : ReqState J → Prop)
    (hstep : ∀ st e, eventOk st e = true → P st → P (step host opts url st e)) :
    ∀ (t : List Event) (st : ReqState J),
      validFrom host opts url st t = true → P st →
      P (t.foldl (step host opts url) st) := by
  intro t
  induction t with
  | nil => intro st _ h; exact h
  | cons e rest ih =>
    intro st hv h
    simp only [validFrom, Bool.and_eq_true] at hv
    exact ih _ hv.2 (hstep st e hv.1 h)

theorem prepBodyHeaders_amendedOk {J : Type} (stringify : J → String)
    (data : JsData J) (callerHeaders : Option (List (String × String)))
    (w : WrapperResult)
    (hb : w.body = (prepBodyHeaders stringify data callerHeaders).1)
    (hh : w.requestHeaders = (prepBodyHeaders stringify data callerHeaders).2) :
    wrapperAmendedOk stringify data callerHeaders w := by
  cases data with
  | str s =>
    refine ⟨?_, ?_⟩
    · intro s' hs
      cases hs
      exact ⟨by rw [hb]; rfl, by rw [hh]; rfl⟩
    · intro v hv
      cases hv
  | other v =>
    refine ⟨?_, ?_⟩
    · intro s hs
      cases hs
    · intro v' hv
      cases hv
      refine ⟨by rw [hb]; rfl, ?_, ?_⟩
      · intro htruthy
        rw [hh]
        simp [prepBodyHeaders, htruthy]
      · intro hfalsy
        rw [hh]
        refine ⟨?_, ?_⟩
        · simp [prepBodyHeaders, hfalsy, objGet_objSet]
        · intro k hk
          simp [prepBodyHeaders, hfalsy, objGet_objSet, hk]

/-! ### Claim theorems -/

/-- C1, counterexample to the claim as stated: `post` with non-string data
and a caller-supplied `Content-Type` header (supplied case-insensitively,
since `'Content-Type'` lowercases to `'content-type'`) must, per the claim,
not receive an injected `content-type` header — but the code's presence
check reads only the exact lowercase key, finds nothing, and injects
`content-type: application/json` next to the caller's entry. -/
theorem C1_counterexample :
    jsToLower "Content-Type" = "content-type" ∧
    (post (fun _ : Unit => "null") (JsData.other ())
        (Option.some [("Content-Type", "text/plain")])).requestHeaders =
      [("Content-Type", "text/plain"), ("content-type", "application/json")] ∧
    objGet (post (fun _ : Unit => "null") (JsData.other ())
        (Option.some [("Content-Type", "text/plain")])).requestHeaders
        "content-type" = Option.some "application/json" := by
  exact ⟨by decide, by decide, by decide⟩

/-- C1 (amended): for `post`, `put` and `patch`, a string `data` is passed
verbatim and a non-string `data` is JSON-serialized; the
`content-type: application/json` header is injected if and only if the
caller's headers lack a truthy entry under the **exact lowercase** key
`'content-type'` (a header under any other casing, or with an empty-string
value, does not count); when the exact-key entry is present and truthy the
headers are passed through unchanged (nothing is overwritten), and an
injection changes no key other than `'content-type'`. -/
theorem C1_amended_wrappers {J : Type} (stringify : J → String)
    (data : JsData J) (callerHeaders : Option (List (String × String))) :
    wrapperAmendedOk stringify data callerHeaders
      (post stringify data callerHeaders) ∧
    wrapperAmendedOk stringify data callerHeaders
      (put stringify data callerHeaders) ∧
    wrapperAmendedOk stringify data callerHeaders
      (patch stringify data callerHeaders) :=
  ⟨prepBodyHeaders_amendedOk stringify data callerHeaders _ rfl rfl,
   prepBodyHeaders_amendedOk stringify data callerHeaders _ rfl rfl,
   prepBodyHeaders_amendedOk stringify data callerHeaders _ rfl rfl⟩

/-- Witness for C1 (amended): concrete `post` call with non-string data and
a `Content-Type` header under non-lowercase casing: the body is the
serialization and `content-type: application/json` is injected. -/
theorem C1_amended_wrappers_witness :
    (post (fun _ : Unit => "null") (JsData.other ())
        (Option.some [("Content-Type", "text/plain")])).body = "null" ∧
    objGet (post (fun _ : Unit => "null") (JsData.other ())
        (Option.some [("Content-Type", "text/plain")])).requestHeaders
        "content-type" = Option.some "application/json" := by
  have h := (C1_amended_wrappers (fun _ : Unit => "null") (JsData.other ())
      (Option.some [("Content-Type", "text/plain")])).1.2 () rfl
  exact ⟨h.1, (h.2.2 (by decide)).1⟩

/-- C10: for `post`, `put` and `patch` with non-string data and a
caller-supplied headers object lacking the exact lowercase key
`'content-type'`, the caller's own headers object is mutated in place
(the code aliases it via `options?.headers || {}` and assigns into it):
after the call it contains the added entry
`'content-type': 'application/json'`. -/
theorem C10_headers_mutated_in_place {J : Type} (stringify : J → String)
    (v : J) (h0 : List (String × String))
    (habsent : objGet h0 "content-type" = Option.none) :
    (post stringify (JsData.other v) (Option.some h0)).callerHeadersAfter =
      Option.some (objSet h0 "content-type" "application/json") ∧
    (put stringify (JsData.other v) (Option.some h0)).callerHeadersAfter =
      Option.some (objSet h0 "content-type" "application/json") ∧
    (patch stringify (JsData.other v) (Option.some h0)).callerHeadersAfter =
      Option.some (objSet h0 "content-type" "application/json") ∧
    objGet (objSet h0 "content-type" "application/json") "content-type" =
      Option.some "application/json" := by
  refine ⟨?_, ?_, ?_, ?_⟩ <;>
    simp [post, put, patch, prepBodyHeaders, habsent, jsTruthyStr, objGet_objSet]

/-- Witness for C10: the concrete `post` call with an initially empty
caller headers object ends with that object holding the injected entry. -/
theorem C10_headers_mutated_in_place_witness :
    (post (fun _ : Unit => "null") (JsData.other ())
        (Option.some [])).callerHeadersAfter =
      Option.some (objSet [] "content-type" "application/json") ∧
    (put (fun _ : Unit => "null") (JsData.other ())
        (Option.some [])).callerHeadersAfter =
      Option.some (objSet [] "content-type" "application/json") ∧
    (patch (fun _ : Unit => "null") (JsData.other ())
        (Option.some [])).callerHeadersAfter =
      Option.some (objSet [] "content-type" "application/json") ∧
    objGet (objSet [] "content-type" "application/json") "content-type" =
      Option.some "application/json" :=
  C10_headers_mutated_in_place (fun _ : Unit => "null") () [] rfl

/-- C5: the request is issued on the default shared session when the proxy
option is omitted or `false` (no isolated partition is created), and on a
freshly created isolated, non-caching partition routed through
`protocol://host:port` when a populated proxy descriptor is supplied. -/
theorem C5_session_routing (nonce protocol host : String) (port : Nat) :
    sessionFor nonce ProxyOpt.omitted = SessionChoice.defaultSession ∧
    sessionFor nonce ProxyOpt.disabled = SessionChoice.defaultSession ∧
    sessionFor nonce (ProxyOpt.enabled protocol host port) =
      SessionChoice.isolated ("temp-request-" ++ nonce) false
        (protocol ++ "://" ++ host ++ ":" ++ toString port) :=
  ⟨rfl, rfl, rfl⟩

/-- C6: the response-headers mapping delivered by the `response` event is
built by `extractHeaders` over the paired raw name/value sequence, and the
resulting mapping looks up any name to exactly the value of the last raw
pair whose lowercased name equals it (`lookupLast`, the spec's words):
keys are lowercased and on duplicates the last occurrence wins. -/
theorem C6_headers_lowercase_last_wins {J : Type} (host : Host J)
    (opts : RequestOptions) (url : String) (st : ReqState J) (status : Nat)
    (statusText : String) (raw : List String) :
    (step host opts url st (Event.response status statusText raw)).resp =
      Option.some (status, statusText, extractHeaders (pairUp raw)) ∧
    ∀ (rawPairs : List (String × String)) (name : String),
      objGet (extractHeaders rawPairs) name = lookupLast rawPairs name := by
  refine ⟨rfl, ?_⟩
  intro rawPairs name
  have h := objGet_foldl_objSet rawPairs [] name
  rw [extractHeaders]
  rw [h]
  cases hl : lookupLast rawPairs name <;> simp [objGet]

/-- C2: the promise settles exactly once — whenever the call is still
pending and a terminal event fires (body end, stream error, request error,
abort, timer expiry, or the redirect past the limit), an outcome commits,
and that outcome is unchanged by every later event of the call, however
many further terminal events fire. -/
theorem C2_settles_exactly_once {J : Type} (host : Host J)
    (opts : RequestOptions) (url : String) (setup : SetupResult)
    (pre : List Event) (e : Event) (rest : List Event)
    (hpend : (run host opts url setup pre).settled = Option.none)
    (hterm : terminalEvent opts (run host opts url setup pre) e = true) :
    ((run host opts url setup (pre ++ [e])).settled).isSome ∧
    (run host opts url setup (pre ++ e :: rest)).settled =
      (run host opts url setup (pre ++ [e])).settled := by
  have h1 : run host opts url setup (pre ++ [e]) =
      step host opts url (run host opts url setup pre) e := by
    rw [run_append]; rfl
  have hsome : ((run host opts url setup (pre ++ [e])).settled).isSome := by
    rw [h1]; exact step_commits host opts url hpend hterm
  refine ⟨hsome, ?_⟩
  obtain ⟨o, ho⟩ := Option.isSome_iff_exists.mp hsome
  have h2 : run host opts url setup (pre ++ e :: rest) =
      rest.foldl (step host opts url) (run host opts url setup (pre ++ [e])) := by
    have hsplit : pre ++ e :: rest = (pre ++ [e]) ++ rest := by simp
    rw [hsplit, run_append]
  rw [h2, ho]
  exact foldl_preserves host opts url (fun st => st.settled = Option.some o)
    (fun st e' hst => step_settled_of_some host opts url e' hst) rest
    (run host opts url setup (pre ++ [e])) ho

/-- Witness for C2: a request error settles the call, and a later abort
event does not change the committed outcome. -/
theorem C2_settles_exactly_once_witness :
    ((run trivialHost {} "u" SetupResult.ok
        ([] ++ [Event.reqError "boom"])).settled).isSome ∧
    (run trivialHost {} "u" SetupResult.ok
        ([] ++ Event.reqError "boom" :: [Event.abortEvt])).settled =
      (run trivialHost {} "u" SetupResult.ok
        ([] ++ [Event.reqError "boom"])).settled :=
  C2_settles_exactly_once trivialHost {} "u" SetupResult.ok []
    (Event.reqError "boom") [Event.abortEvt] rfl rfl

/-- C3: a redirect-limit failure occurs exactly when the redirect count
exceeds `maxRedirects` — a pending call that has already seen
`maxRedirects` redirects is, on the next (i.e. `maxRedirects + 1`-th)
redirect event, aborted and rejected with the too-many-redirects error
carrying the configured maximum; a redirect while strictly below the limit
leaves the call pending; and any committed too-many-redirects outcome
carries exactly `maxRedirects` and implies the count exceeded it. -/
theorem C3_redirect_limit {J : Type} (host : Host J) (opts : RequestOptions)
    (url : String) (setup : SetupResult) :
    (∀ pre, (run host opts url setup pre).settled = Option.none →
      (run host opts url setup pre).redirectCount = opts.maxRedirects →
      (run host opts url setup (pre ++ [Event.redirect])).settled =
          Option.some (Outcome.tooManyRedirects opts.maxRedirects) ∧
        (run host opts url setup (pre ++ [Event.redirect])).aborted = true) ∧
    (∀ pre, (run host opts url setup pre).settled = Option.none →
      (run host opts url setup pre).redirectCount < opts.maxRedirects →
      (run host opts url setup (pre ++ [Event.redirect])).settled =
        Option.none) ∧
    (∀ trace m,
      (run host opts url setup trace).settled =
        Option.some (Outcome.tooManyRedirects m) →
      m = opts.maxRedirects ∧
        (run host opts url setup trace).redirectCount > opts.maxRedirects) := by
  refine ⟨?_, ?_, ?_⟩
  · intro pre hpend hcount
    have h1 : run host opts url setup (pre ++ [Event.redirect]) =
        step host opts url (run host opts url setup pre) Event.redirect := by
      rw [run_append]; rfl
    have hgt : (run host opts url setup pre).redirectCount + 1 >
        opts.maxRedirects := by omega
    rw [h1]
    simp [step, onRedirect, settle, hpend, hgt]
  · intro pre hpend hcount
    have h1 : run host opts url setup (pre ++ [Event.redirect]) =
        step host opts url (run host opts url setup pre) Event.redirect := by
      rw [run_append]; rfl
    have hngt : ¬ ((run host opts url setup pre).redirectCount + 1 >
        opts.maxRedirects) := by omega
    rw [h1]
    simp [step, onRedirect, settle, hpend, hngt]
  · intro trace m htr
    exact foldl_preserves host opts url
      (fun st => ∀ m', st.settled = Option.some (Outcome.tooManyRedirects m') →
        m' = opts.maxRedirects ∧ st.redirectCount > opts.maxRedirects)
      (fun st e h => step_redirect_inv host opts url e h) trace
      (startState opts setup)
      (by cases setup <;> simp [startState]) m htr

/-- Witness for C3: with `maxRedirects = 1`, one redirect leaves the call
pending, and the second redirect commits the too-many-redirects outcome
with the count then exceeding the limit. -/
theorem C3_redirect_limit_witness :
    ((run trivialHost { maxRedirects := 1 } "u" SetupResult.ok
        ([Event.redirect] ++ [Event.redirect])).settled =
        Option.some (Outcome.tooManyRedirects 1) ∧
      (run trivialHost { maxRedirects := 1 } "u" SetupResult.ok
        ([Event.redirect] ++ [Event.redirect])).aborted = true) ∧
    (run trivialHost { maxRedirects := 1 } "u" SetupResult.ok
        ([] ++ [Event.redirect])).settled = Option.none ∧
    (1 = ({ maxRedirects := 1 } : RequestOptions).maxRedirects ∧
      (run trivialHost { maxRedirects := 1 } "u" SetupResult.ok
        [Event.redirect, Event.redirect]).redirectCount >
        ({ maxRedirects := 1 } : RequestOptions).maxRedirects) :=
  ⟨(C3_redirect_limit trivialHost { maxRedirects := 1 } "u" SetupResult.ok).1
      [Event.redirect] rfl rfl,
   (C3_redirect_limit trivialHost { maxRedirects := 1 } "u" SetupResult.ok).2.1
      [] rfl (by decide),
   (C3_redirect_limit trivialHost { maxRedirects := 1 } "u" SetupResult.ok).2.2
      [Event.redirect, Event.redirect] 1 (by decide)⟩

/-- C4: with `timeout > 0` the timer is armed, and when it fires on a
pending call the request is aborted and the call rejects with the timeout
error carrying the configured duration; with `timeout ≤ 0` no timer is ever
armed and no deliverable trace settles with a timeout error; and on every
settled state — whatever the outcome — the timer is no longer pending. -/
theorem C4_timeout_behavior {J : Type} (host : Host J) (opts : RequestOptions)
    (url : String) (setup : SetupResult) :
    (opts.timeout > 0 →
      (startState (J := J) opts SetupResult.ok).timerActive = true) ∧
    (opts.timeout ≤ 0 →
      (startState (J := J) opts SetupResult.ok).timerActive = false ∧
      ∀ trace, validFrom host opts url (startState opts setup) trace = true →
        ∀ d, (run host opts url setup trace).settled ≠
          Option.some (Outcome.timeoutErr d)) ∧
    (∀ pre, (run host opts url setup pre).settled = Option.none →
      (run host opts url setup pre).timerActive = true →
      (run host opts url setup (pre ++ [Event.timerFire])).settled =
          Option.some (Outcome.timeoutErr opts.timeout) ∧
        (run host opts url setup (pre ++ [Event.timerFire])).aborted = true) ∧
    (∀ trace, ((run host opts url setup trace).settled).isSome →
      (run host opts url setup trace).timerActive = false) := by
  refine ⟨?_, ?_, ?_, ?_⟩
  · intro hpos
    simp [startState, hpos]
  · intro hnonpos
    have hbase : (startState (J := J) opts setup).timerActive = false ∧
        ∀ d, (startState (J := J) opts setup).settled ≠
          Option.some (Outcome.timeoutErr d) := by
      cases setup <;> simp [startState]
      all_goals omega
    refine ⟨by simp [startState]; omega, ?_⟩
    intro trace hvalid d
    have hstep : ∀ (st : ReqState J) e, eventOk st e = true →
        (st.timerActive = false ∧ ∀ d', st.settled ≠
          Option.some (Outcome.timeoutErr d')) →
        ((step host opts url st e).timerActive = false ∧
          ∀ d', (step host opts url st e).settled ≠
            Option.some (Outcome.timeoutErr d')) := by
      intro st e hok hP
      by_cases he : e = Event.timerFire
      · subst he
        simp only [eventOk] at hok
        rw [hP.1] at hok
        exact absurd hok (by simp)
      · exact ⟨step_timerActive_false host opts url e hP.1,
          step_no_timeout host opts url he hP.2⟩
    exact (validFrom_preserves host opts url _ hstep trace
      (startState opts setup) hvalid hbase).2 d
  · intro pre hpend htimer
    have h1 : run host opts url setup (pre ++ [Event.timerFire]) =
        step host opts url (run host opts url setup pre) Event.timerFire := by
      rw [run_append]; rfl
    rw [h1]
    simp [step, onTimerFire, settle, hpend]
  · intro trace
    exact foldl_preserves host opts url
      (fun st => st.settled.isSome → st.timerActive = false)
      (fun st e h => step_timer_cleared host opts url e h) trace
      (startState opts setup)
      (by cases setup <;> simp [startState])

/-- Witness for C4: with the default 30000 ms timeout the timer is armed and
firing it settles the call with the timeout error carrying 30000; with
`timeout = 0` no timer is armed and the error-settled trace carries no
timeout outcome; a settled trace has no pending timer. -/
theorem C4_timeout_behavior_witness :
    (startState (J := Unit) {} SetupResult.ok).timerActive = true ∧
    ((startState (J := Unit) { timeout := 0 } SetupResult.ok).timerActive =
      false ∧
      ∀ d, (run trivialHost { timeout := 0 } "u" SetupResult.ok
        [Event.reqError "boom"]).settled ≠
          Option.some (Outcome.timeoutErr d)) ∧
    ((run trivialHost {} "u" SetupResult.ok
        ([] ++ [Event.timerFire])).settled =
      Option.some (Outcome.timeoutErr ({} : RequestOptions).timeout) ∧
      (run trivialHost {} "u" SetupResult.ok
        ([] ++ [Event.timerFire])).aborted = true) ∧
    (run trivialHost {} "u" SetupResult.ok
      [Event.reqError "boom"]).timerActive = false :=
  ⟨(C4_timeout_behavior trivialHost {} "u" SetupResult.ok).1 (by decide),
   ⟨((C4_timeout_behavior trivialHost { timeout := 0 } "u" SetupResult.ok).2.1
      (by decide)).1,
    ((C4_timeout_behavior trivialHost { timeout := 0 } "u" SetupResult.ok).2.1
      (by decide)).2 [Event.reqError "boom"] rfl⟩,
   (C4_timeout_behavior trivialHost {} "u" SetupResult.ok).2.2.1 [] rfl
     (by decide),
   (C4_timeout_behavior trivialHost {} "u" SetupResult.ok).2.2.2
     [Event.reqError "boom"] (by decide)⟩

/-- C7: with `responseType: 'json'`, on body end the accumulated buffer is
UTF-8-decoded and JSON-parsed; a successful parse resolves the call with
the parsed value as `data`, and a parse failure rejects the call with the
parse error wrapping the cause — and the call does not resolve. -/
theorem C7_json_parsing {J : Type} (host : Host J) (opts : RequestOptions)
    (url : String) (setup : SetupResult) (pre : List Event)
    (hjson : opts.responseType = RespType.json)
    (hpend : (run host opts url setup pre).settled = Option.none)
    (s : Nat) (t : String) (hs : List (String × String))
    (hresp : (run host opts url setup pre).resp = Option.some (s, t, hs)) :
    (∀ j, host.jsonParse (host.utf8Decode
        ((run host opts url setup pre).chunks.flatten)) = Except.ok j →
      (run host opts url setup (pre ++ [Event.endEvt])).settled =
        Option.some (Outcome.resolved ⟨RespData.json j, s, t, hs, url⟩)) ∧
    (∀ e, host.jsonParse (host.utf8Decode
        ((run host opts url setup pre).chunks.flatten)) = Except.error e →
      (run host opts url setup (pre ++ [Event.endEvt])).settled =
        Option.some (Outcome.parseError e) ∧
      ∀ r, (run host opts url setup (pre ++ [Event.endEvt])).settled ≠
        Option.some (Outcome.resolved r)) := by
  have h1 : run host opts url setup (pre ++ [Event.endEvt]) =
      step host opts url (run host opts url setup pre) Event.endEvt := by
    rw [run_append]; rfl
  constructor
  · intro j hj
    rw [h1]
    simp [step, onEnd, hresp, hjson, hj, settle, hpend]
  · intro e he
    rw [h1]
    simp [step, onEnd, hresp, hjson, he, settle, hpend]

/-- Witness for C7: with a host whose `JSON.parse` accepts exactly the
decoding of the empty buffer, an empty body resolves with the parsed value
and a non-empty body rejects with the parse error. -/
theorem C7_json_parsing_witness :
    (run parseHost { responseType := RespType.json } "u" SetupResult.ok
        ([Event.response 200 "OK" []] ++ [Event.endEvt])).settled =
      Option.some (Outcome.resolved
        ⟨RespData.json (), 200, "OK", [], "u"⟩) ∧
    (run parseHost { responseType := RespType.json } "u" SetupResult.ok
        ([Event.response 200 "OK" [], Event.dataChunk [123]] ++
          [Event.endEvt])).settled =
      Option.some (Outcome.parseError "SyntaxError") :=
  ⟨(C7_json_parsing parseHost { responseType := RespType.json } "u"
      SetupResult.ok [Event.response 200 "OK" []] rfl rfl 200 "OK" [] rfl).1
      () rfl,
   ((C7_json_parsing parseHost { responseType := RespType.json } "u"
      SetupResult.ok [Event.response 200 "OK" [], Event.dataChunk [123]]
      rfl rfl 200 "OK" [] rfl).2 "SyntaxError" rfl).1⟩

/-- C8: chunks accumulate in arrival order; on body end a call with
`responseType: 'text'` resolves with `{data, status, statusText, headers,
url}` where `data` is the UTF-8 decoding of the accumulated bytes, and a
call with `responseType: 'arraybuffer'` resolves with `data` being exactly
the accumulated bytes (whose length is the sum of the received chunk
lengths); and every resolved value's `url` field is the original input
URL. -/
theorem C8_resolved_value {J : Type} (host : Host J) (opts : RequestOptions)
    (url : String) (setup : SetupResult) (pre : List Event)
    (hpend : (run host opts url setup pre).settled = Option.none)
    (s : Nat) (t : String) (hs : List (String × String))
    (hresp : (run host opts url setup pre).resp = Option.some (s, t, hs)) :
    (∀ c, (run host opts url setup (pre ++ [Event.dataChunk c])).chunks =
      (run host opts url setup pre).chunks ++ [c]) ∧
    (opts.responseType = RespType.text →
      (run host opts url setup (pre ++ [Event.endEvt])).settled =
        Option.some (Outcome.resolved
          ⟨RespData.text (host.utf8Decode
            ((run host opts url setup pre).chunks.flatten)), s, t, hs, url⟩)) ∧
    (opts.responseType = RespType.arraybuffer →
      (run host opts url setup (pre ++ [Event.endEvt])).settled =
        Option.some (Outcome.resolved
          ⟨RespData.bytes ((run host opts url setup pre).chunks.flatten),
            s, t, hs, url⟩) ∧
      ((run host opts url setup pre).chunks.flatten).length =
        (((run host opts url setup pre).chunks).map List.length).sum) ∧
    (∀ trace r, (run host opts url setup trace).settled =
        Option.some (Outcome.resolved r) → r.url = url) := by
  have h1 : run host opts url setup (pre ++ [Event.endEvt]) =
      step host opts url (run host opts url setup pre) Event.endEvt := by
    rw [run_append]; rfl
  refine ⟨?_, ?_, ?_, ?_⟩
  · intro c
    have h2 : run host opts url setup (pre ++ [Event.dataChunk c]) =
        step host opts url (run host opts url setup pre) (Event.dataChunk c) := by
      rw [run_append]; rfl
    rw [h2]
    simp [step]
  · intro htext
    rw [h1]
    simp [step, onEnd, hresp, htext, settle, hpend]
  · intro hbuf
    rw [h1]
    refine ⟨?_, List.length_flatten _⟩
    simp [step, onEnd, hresp, hbuf, settle, hpend]
  · intro trace r
    exact foldl_preserves host opts url
      (fun st => ∀ r', st.settled = Option.some (Outcome.resolved r') →
        r'.url = url)
      (fun st e h => step_url_inv host opts url e h) trace
      (startState opts setup)
      (by cases setup <;> simp [startState]) r

/-- Witness for C8: a text-mode call resolves with the decoded body, the
lowercased stored headers, and the original URL; an arraybuffer-mode call
resolves with the accumulated bytes unchanged. -/
theorem C8_resolved_value_witness :
    (run trivialHost {} "http://orig" SetupResult.ok
        ([Event.response 204 "No Content" ["X-A", "1"]] ++
          [Event.endEvt])).settled =
      Option.some (Outcome.resolved
        ⟨RespData.text "", 204, "No Content", [("x-a", "1")], "http://orig"⟩) ∧
    (run trivialHost { responseType := RespType.arraybuffer } "u"
        SetupResult.ok
        ([Event.response 200 "OK" [], Event.dataChunk [7, 8]] ++
          [Event.endEvt])).settled =
      Option.some (Outcome.resolved
        ⟨RespData.bytes [7, 8], 200, "OK", [], "u"⟩) := by
  constructor
  · have h := (C8_resolved_value trivialHost {} "http://orig" SetupResult.ok
      [Event.response 204 "No Content" ["X-A", "1"]] rfl 204 "No Content"
      [("x-a", "1")] (by decide)).2.1 rfl
    exact h
  · have h := ((C8_resolved_value trivialHost
      { responseType := RespType.arraybuffer } "u" SetupResult.ok
      [Event.response 200 "OK" [], Event.dataChunk [7, 8]] rfl 200 "OK" []
      rfl).2.2.1 rfl).1
    exact h

/-- C9, counterexample to the claim as stated: the wrapped
`failed to setup proxy` rejection is *not* exclusive to proxy-setup
failures — the `.catch` on `setupProxy().then(...)` also receives any
synchronous exception thrown inside the `.then` callback (such as
`net.request` throwing on a malformed URL), so a call with no proxy
configured at all can reject under the wrapped proxy-setup form. -/
theorem C9_counterexample :
    ({ proxy := ProxyOpt.omitted : RequestOptions }).proxy =
      ProxyOpt.omitted ∧
    (startState (J := Unit) { proxy := ProxyOpt.omitted }
        (SetupResult.thenThrow "invalid URL")).settled =
      Option.some (Outcome.proxySetupError "invalid URL") :=
  ⟨rfl, rfl⟩

/-- C9 (amended): an underlying transport or stream error delivered via an
error event settles the call with that error as-is (unwrapped); a rejection
of the proxy-setup phase settles the call with the wrapped
`failed to setup proxy` error — but so does any synchronous exception
thrown while constructing and issuing the request, since the same catch
handler receives both; once the setup phase has completed cleanly, no event
of the call ever produces the wrapped proxy-setup form. -/
theorem C9_error_propagation {J : Type} (host : Host J)
    (opts : RequestOptions) (url : String) (setup : SetupResult) :
    (∀ pre e, (run host opts url setup pre).settled = Option.none →
      (run host opts url setup (pre ++ [Event.streamError e])).settled =
          Option.some (Outcome.transportError e) ∧
        (run host opts url setup (pre ++ [Event.reqError e])).settled =
          Option.some (Outcome.transportError e)) ∧
    (∀ e, (startState (J := J) opts (SetupResult.proxyFailure e)).settled =
      Option.some (Outcome.proxySetupError e)) ∧
    (∀ e, (startState (J := J) opts (SetupResult.thenThrow e)).settled =
      Option.some (Outcome.proxySetupError e)) ∧
    (∀ trace c, (run host opts url SetupResult.ok trace).settled =
        Option.some (Outcome.proxySetupError c) → False) := by
  refine ⟨?_, fun e => rfl, fun e => rfl, ?_⟩
  · intro pre e hpend
    have h1 : run host opts url setup (pre ++ [Event.streamError e]) =
        step host opts url (run host opts url setup pre)
          (Event.streamError e) := by
      rw [run_append]; rfl
    have h2 : run host opts url setup (pre ++ [Event.reqError e]) =
        step host opts url (run host opts url setup pre)
          (Event.reqError e) := by
      rw [run_append]; rfl
    rw [h1, h2]
    constructor <;> simp [step, onError, settle, hpend]
  · intro trace c htr
    exact foldl_preserves host opts url
      (fun st => ∀ c', st.settled ≠
        Option.some (Outcome.proxySetupError c'))
      (fun st e h => step_no_proxySetup host opts url e h) trace
      (startState opts SetupResult.ok)
      (by simp [startState]) c htr

/-- Witness for C9 (amended): a concrete stream error and request error
are propagated as-is. -/
theorem C9_error_propagation_witness :
    (run trivialHost {} "u" SetupResult.ok
        ([] ++ [Event.streamError "ECONNRESET"])).settled =
      Option.some (Outcome.transportError "ECONNRESET") ∧
    (run trivialHost {} "u" SetupResult.ok
        ([] ++ [Event.reqError "ECONNRESET"])).settled =
      Option.some (Outcome.transportError "ECONNRESET") :=
  (C9_error_propagation trivialHost {} "u" SetupResult.ok).1 []
    "ECONNRESET" rfl

end ChromeRequest
